import Mathlib

/-!
# Verification of the scion 2D game engine core

A shallow embedding, in Lean 4, of the parts of the `scion` 2D game engine
that the specification's testable properties talk about:

* the color-picking registry (`src/core/resources/color_picking.rs`),
* the parent/children hierarchy maintenance (`src/core/components/maths/hierarchy.rs`),
* the animation component (`src/graphics/components/animations.rs`),
* the pre-renderer buffer-update pass
  (`src/graphics/rendering/scion2d/utils/prepare_component_buffer_updates.rs`),
* the pre-renderer transform-uniform pass
  (`src/graphics/rendering/scion2d/utils/prepare_transform_updates.rs`).

Rust `HashMap`s are embedded as association lists with insert-overwrite
semantics, `VecDeque` as a plain list (`pop_front` reads the head,
`push_back` appends), entities (`hecs::Entity`) as natural numbers, and the
`u32` counter of the color-picking registry as a natural number reduced
modulo `2 ^ 32` (release-mode wrapping semantics of Rust integer overflow).
Vertex/index byte payloads and uniform payloads are carried opaquely: the
claims under study only concern which updates are emitted and for which
entity, never the bytes themselves.
-/

namespace Scion

/-! ## Association-list model of `HashMap` -/

/-- Lookup in an association list; the model of `HashMap::get`. -/
def lookupA {α β : Type} [DecidableEq α] (m : List (α × β)) (k : α) : Option β :=
  match m with
  | [] => none
  | (k', v) :: rest => if k' = k then some v else lookupA rest k

/-- Removal of a key; the model of `HashMap::remove` (value dropped). -/
def eraseA {α β : Type} [DecidableEq α] (m : List (α × β)) (k : α) : List (α × β) :=
  match m with
  | [] => []
  | (k', v) :: rest => if k' = k then eraseA rest k else (k', v) :: eraseA rest k

/-- Insertion overwriting any previous binding; the model of `HashMap::insert`. -/
def insertA {α β : Type} [DecidableEq α] (m : List (α × β)) (k : α) (v : β) : List (α × β) :=
  (k, v) :: eraseA m k

/-! ## Color-picking registry (`src/core/resources/color_picking.rs`) -/

/-- An entity (`hecs::Entity`), embedded as a natural number. -/
abbrev Entity := Nat

/-- The modulus of Rust `u32` arithmetic. -/
def u32Size : Nat := 4294967296

/-- An opaque picking color. Modelled from the spec: `color.rs` is not under
`src/`; the spec describes a "bidirectional entity↔opaque-color-id mapping",
so a `Color` is just its `u32` id (`Color::color_from_u32` / `Color::as_u32`
convert between the two representations). -/
structure Color where
  val : Nat
deriving DecidableEq

/-- `Color::color_from_u32`. -/
def Color.color_from_u32 (v : Nat) : Color := ⟨v⟩

/-- `Color::as_u32`. -/
def Color.as_u32 (c : Color) : Nat := c.val

/-- `ColorPickingStorage` (lines 5-11 of `color_picking.rs`): the two
`HashMap`s are association lists, the `VecDeque` of reclaimed ids is a list
whose head is the deque's front, and `next_color_index : u32` is a natural
number kept below `2 ^ 32`. -/
structure ColorPickingStorage where
  entity_to_color : List (Entity × Nat)
  color_to_entity : List (Nat × Entity)
  available_colors_indexes : List Nat
  next_color_index : Nat
deriving DecidableEq

namespace ColorPickingStorage

/-- `#[derive(Default)]`: empty maps, empty deque, counter at 0. -/
def mkDefault : ColorPickingStorage := ⟨[], [], [], 0⟩

/-- `ColorPickingStorage::entity_registered`. -/
def entity_registered (s : ColorPickingStorage) (entity : Entity) : Bool :=
  (lookupA s.entity_to_color entity).isSome

/-- `ColorPickingStorage::color_registered`. -/
def color_registered (s : ColorPickingStorage) (color : Color) : Bool :=
  (lookupA s.color_to_entity color.as_u32).isSome

/-- `ColorPickingStorage::next_index` (lines 49-56): returns the current
counter (bumped to 1 if it is 0, so index 0 is never handed out) and stores
the successor, with `u32` wrap-around on overflow. -/
def next_index (s : ColorPickingStorage) : Nat × ColorPickingStorage :=
  let next := s.next_color_index
  let next := if next = 0 then next + 1 else next
  (next, { s with next_color_index := (next + 1) % u32Size })

/-- `ColorPickingStorage::create_picking` (lines 31-39). Note the source's
`self.available_colors_indexes.pop_front().unwrap_or(self.next_index())`:
`pop_front` always removes the deque's front and, `unwrap_or` being eager,
`next_index` always runs (bumping the counter) even when a reclaimed id is
used. -/
def create_picking (s : ColorPickingStorage) (entity : Entity) : Color × ColorPickingStorage :=
  match lookupA s.entity_to_color entity with
  | some c => (Color.color_from_u32 c, s)
  | none =>
    let popped := s.available_colors_indexes.head?
    let s := { s with available_colors_indexes := s.available_colors_indexes.tail }
    let (fresh, s) := s.next_index
    let next_index := popped.getD fresh
    (Color.color_from_u32 next_index,
     { s with entity_to_color := insertA s.entity_to_color entity next_index,
              color_to_entity := insertA s.color_to_entity next_index entity })

/-- `ColorPickingStorage::get_entity_from_color` (lines 41-47). -/
def get_entity_from_color (s : ColorPickingStorage) (color : Color) : Option Entity :=
  lookupA s.color_to_entity color.as_u32

/-- Modelled from the spec: the despawn-time reclamation of a picking id.
The code freeing the registry entry for a despawned entity is not under
`src/` (the runner only forwards despawned ids to the rendering side); the
spec's data-model section says the registry keeps "a free-list of reclaimed
ids" and that an id is "reused after despawn", so despawning removes both
directions of the mapping and pushes the id onto the back of the free
list. -/
def remove_picking (s : ColorPickingStorage) (entity : Entity) : ColorPickingStorage :=
  match lookupA s.entity_to_color entity with
  | some c =>
      { s with entity_to_color := eraseA s.entity_to_color entity,
               color_to_entity := eraseA s.color_to_entity c,
               available_colors_indexes := s.available_colors_indexes ++ [c] }
  | none => s

/-- The state reached after a sequence of `create_picking` calls. -/
def createAll (s : ColorPickingStorage) (es : List Entity) : ColorPickingStorage :=
  es.foldl (fun s e => (s.create_picking e).2) s

/-- The two registry maps are mutually inverse. -/
def MutualInverse (s : ColorPickingStorage) : Prop :=
  (∀ e c, lookupA s.entity_to_color e = some c → lookupA s.color_to_entity c = some e) ∧
  (∀ c e, lookupA s.color_to_entity c = some e → lookupA s.entity_to_color e = some c)

/-- No entity is ever assigned the color id 0. -/
def NoZeroColor (s : ColorPickingStorage) : Prop :=
  ∀ e c, lookupA s.entity_to_color e = some c → c ≠ 0

/-- Inductive invariant of states reached from the default registry by `n`
id-allocating `create_picking` calls: the free list stays empty, the counter
tracks `n` (modulo `u32` wrap-around), every assigned id lies in `[1, n]`,
and the maps are mutually inverse. -/
def Inv (s : ColorPickingStorage) (n : Nat) : Prop :=
  s.available_colors_indexes = [] ∧
  s.next_color_index = (if n = 0 then 0 else (n + 1) % u32Size) ∧
  (∀ e c, lookupA s.entity_to_color e = some c → 1 ≤ c ∧ c ≤ n) ∧
  MutualInverse s

end ColorPickingStorage

/-! ## Parent/children hierarchy (`src/core/components/maths/hierarchy.rs`) -/

/-- The slice of a `hecs::World` that the hierarchy-maintenance functions
read and write: which entities exist, each entity's optional `Parent`
component (the parent's id) and optional `Children` component (the list of
child ids). -/
structure HWorld where
  entities : List Entity
  parent : List (Entity × Entity)
  children : List (Entity × List Entity)
deriving DecidableEq

/-- `init_parent_children_link` (lines 28-54 of `hierarchy.rs`); `none` is
the `panic!` on a dangling parent reference. The `query_one_mut` fails
silently when `potential_children` itself is absent; `hecs`'s `insert`
attaches a fresh `Children` component when the parent has none yet. -/
def init_parent_children_link (w : HWorld) (potential_children : Entity) : Option HWorld :=
  let should_add_children : Option Entity :=
    if potential_children ∈ w.entities then lookupA w.parent potential_children else none
  match should_add_children with
  | none => some w
  | some parent_entity =>
    if parent_entity ∈ w.entities then
      match lookupA w.children parent_entity with
      | some cs =>
          let cs' := if potential_children ∈ cs then cs else cs ++ [potential_children]
          some { w with children := insertA w.children parent_entity cs' }
      | none =>
          some { w with children := insertA w.children parent_entity [potential_children] }
    else
      none

/-- `update_parent_if_needed` (lines 76-86): deregisters `old_child` from
`old_parent`'s children list (`Vec::retain` keeps exactly the elements
different from `old_child`). -/
def update_parent_if_needed (w : HWorld) (old_parent : Option Entity) (old_child : Entity) :
    HWorld :=
  match old_parent with
  | none => w
  | some parent_entity =>
    match lookupA w.children parent_entity with
    | some cs =>
        if old_child ∈ cs then
          { w with children :=
              insertA w.children parent_entity (cs.filter (fun x => x ≠ old_child)) }
        else w
    | none => w

/-- The number of occurrences of `e` in `p`'s children list (0 when `p` has
no `Children` component). -/
def childCount (w : HWorld) (p e : Entity) : Nat :=
  ((lookupA w.children p).getD []).count e

/-! ## Animations (`src/graphics/components/animations.rs`) -/

/-- `AnimationStatus` (lines 141-148); `Instant`s are embedded as
nanosecond counts. -/
inductive AnimationStatus where
  | WaitingStartTime (instant : Nat)
  | ForceStopped
  | Stopped
  | Running
  | Looping
  | Stopping
deriving DecidableEq

/-- `AnimationModifier`, restricted to its keyframe counters: the payload
fields (`modifier_type`, durations, sprite index, variant flag) are read
neither by `try_update_status` nor by the `run*` family under study. -/
structure AnimationModifier where
  number_of_keyframes : Nat
  current_keyframe : Nat
deriving DecidableEq

/-- `Animation` (lines 150-154; the `_duration` field, unread by the
functions under study, is omitted). -/
structure Animation where
  modifiers : List AnimationModifier
  status : AnimationStatus
deriving DecidableEq

/-- `Animation::try_update_status` (lines 196-213). -/
def Animation.try_update_status (a : Animation) : Animation :=
  if a.status = AnimationStatus.ForceStopped then
    { a with status := AnimationStatus.Stopped }
  else if (a.modifiers.filter
      (fun m => m.current_keyframe = m.number_of_keyframes)).length = a.modifiers.length then
    let a := { a with modifiers := a.modifiers.map (fun m => { m with current_keyframe := 0 }) }
    if a.status = AnimationStatus.Running ∨ a.status = AnimationStatus.Stopping then
      { a with status := AnimationStatus.Stopped }
    else a
  else a

/-- `Animations` (lines 12-14): the `HashMap<String, Animation>` as an
association list. -/
structure Animations where
  animations : List (String × Animation)
deriving DecidableEq

/-- `Animations::run` (lines 29-45). -/
def Animations.run (anims : Animations) (animation_name : String) (status : AnimationStatus) :
    Bool × Animations :=
  match lookupA anims.animations animation_name with
  | none => (false, anims)
  | some animation =>
    match animation.status with
    | AnimationStatus.WaitingStartTime _ =>
        (true, ⟨insertA anims.animations animation_name { animation with status := status }⟩)
    | AnimationStatus.Stopped =>
        (true, ⟨insertA anims.animations animation_name { animation with status := status }⟩)
    | _ => (false, anims)

/-- `Animations::run_animation` (lines 48-50). -/
def Animations.run_animation (anims : Animations) (animation_name : String) :
    Bool × Animations :=
  anims.run animation_name AnimationStatus.Running

/-- Upper bound of the embedded `Instant` clock, for `Instant::checked_add`. -/
def instantMax : Nat := 2 ^ 64

/-- `Instant::now().checked_add(delay)`: `now` is a parameter (the model has
no clock); the addition fails beyond the platform bound. -/
def checkedAdd (now delay : Nat) : Option Nat :=
  if now + delay < instantMax then some (now + delay) else none

/-- `Animations::run_animation_delayed` (lines 53-59). Note that the source
drops the result of `self.run(..)` and returns `true` whenever `checked_add`
succeeded. -/
def Animations.run_animation_delayed (anims : Animations) (now : Nat)
    (animation_name : String) (delay : Nat) : Bool × Animations :=
  match checkedAdd now delay with
  | some start_time =>
      (true, (anims.run animation_name (AnimationStatus.WaitingStartTime start_time)).2)
  | none => (false, anims)

/-! ## Pre-renderer buffer pass (`prepare_component_buffer_updates.rs`) -/

/-- Modelled from the spec: the pre-renderer's per-entity buffer registry
(`Scion2DPreRenderer`, whose source file is not under `src/`). The spec's
data model entry "Render buffer registry": per-entity flags for "has vertex
buffer uploaded" / "has index buffer uploaded", created lazily on first
upload. `missing_vertex_buffer`/`missing_indexes_buffer` test the flag,
`upsert_vertex_buffer`/`upsert_indexes_buffer` set it. -/
structure Scion2DPreRenderer where
  vertex_buffers : List Entity
  indexes_buffers : List Entity
deriving DecidableEq

def Scion2DPreRenderer.missing_vertex_buffer (r : Scion2DPreRenderer) (e : Entity) : Bool :=
  decide (e ∉ r.vertex_buffers)

def Scion2DPreRenderer.missing_indexes_buffer (r : Scion2DPreRenderer) (e : Entity) : Bool :=
  decide (e ∉ r.indexes_buffers)

def Scion2DPreRenderer.upsert_vertex_buffer (r : Scion2DPreRenderer) (e : Entity) :
    Scion2DPreRenderer :=
  if e ∈ r.vertex_buffers then r else { r with vertex_buffers := e :: r.vertex_buffers }

def Scion2DPreRenderer.upsert_indexes_buffer (r : Scion2DPreRenderer) (e : Entity) :
    Scion2DPreRenderer :=
  if e ∈ r.indexes_buffers then r else { r with indexes_buffers := e :: r.indexes_buffers }

/-- `RenderingUpdate` (`src/graphics/rendering/mod.rs` lines 35-59),
restricted to the constructors the passes under study emit; the byte
`contents` are opaque payloads, and the `usage` flag and the uniform payload
are dropped (constants/derived data the claims never inspect). -/
inductive RenderingUpdate where
  | VertexBuffer (entity : Entity) (contents : List Nat)
  | IndexBuffer (entity : Entity) (contents : List Nat)
  | TransformUniform (entity : Entity)
deriving DecidableEq

/-- The owning entity an update is tagged with. -/
def RenderingUpdate.taggedEntity : RenderingUpdate → Entity
  | VertexBuffer e _ => e
  | IndexBuffer e _ => e
  | TransformUniform e => e

/-- A renderable shape component as `prepare_buffer_update_for_component`
sees it through the `Renderable2D` trait: a dirty flag, plus the byte
payloads its `vertex_buffer_descriptor` / `indexes_buffer_descriptor` would
produce (opaque here). -/
structure RComponent where
  dirty : Bool
  vertex_contents : List Nat
  index_contents : List Nat
deriving DecidableEq

/-- `Renderable2D::set_dirty`. -/
def RComponent.set_dirty (c : RComponent) (b : Bool) : RComponent := { c with dirty := b }

/-- The body of the query loop of `prepare_buffer_update_for_component`
(lines 39-61) for one `(entity, component)` pair: emit a vertex update when
the vertex buffer is missing or the component is dirty, then likewise for
the index buffer, then clear the dirty flag. -/
def processShapeEntity (r : Scion2DPreRenderer) (e : Entity) (c : RComponent) :
    List RenderingUpdate × Scion2DPreRenderer × RComponent :=
  let p1 :=
    if r.missing_vertex_buffer e || c.dirty then
      ([RenderingUpdate.VertexBuffer e c.vertex_contents], r.upsert_vertex_buffer e)
    else ([], r)
  let p2 :=
    if p1.2.missing_indexes_buffer e || c.dirty then
      ([RenderingUpdate.IndexBuffer e c.index_contents], p1.2.upsert_indexes_buffer e)
    else ([], p1.2)
  (p1.1 ++ p2.1, p2.2, c.set_dirty false)

/-- `prepare_buffer_update_for_component` (lines 35-63): folds the loop body
over the query's `(entity, component)` pairs, returning the emitted updates,
the final registry, and the components as the loop leaves them. -/
def prepare_buffer_update_for_component (r : Scion2DPreRenderer)
    (items : List (Entity × RComponent)) :
    List RenderingUpdate × Scion2DPreRenderer × List (Entity × RComponent) :=
  match items with
  | [] => ([], r, [])
  | (e, c) :: rest =>
    let step := processShapeEntity r e c
    let next := prepare_buffer_update_for_component step.2.1 rest
    (step.1 ++ next.1, next.2.1, (e, step.2.2) :: next.2.2)

/-- The updates the shape/UI loop body emits, as a function of the entity's
two missing-buffer flags and the component: one vertex update when the
vertex buffer is missing or the component dirty, then one index update
likewise. -/
def shapeEmits (mv mi : Bool) (e : Entity) (c : RComponent) : List RenderingUpdate :=
  (if mv || c.dirty then [RenderingUpdate.VertexBuffer e c.vertex_contents] else []) ++
  (if mi || c.dirty then [RenderingUpdate.IndexBuffer e c.index_contents] else [])

/-- The body of the query loop of `prepare_buffer_update_for_ui_component`
(lines 69-89) for one `(entity, component)` pair: same gating as the shape
pass, but the component's dirty flag is never cleared. -/
def processUiEntity (r : Scion2DPreRenderer) (e : Entity) (c : RComponent) :
    List RenderingUpdate × Scion2DPreRenderer × RComponent :=
  let p1 :=
    if r.missing_vertex_buffer e || c.dirty then
      ([RenderingUpdate.VertexBuffer e c.vertex_contents], r.upsert_vertex_buffer e)
    else ([], r)
  let p2 :=
    if p1.2.missing_indexes_buffer e || c.dirty then
      ([RenderingUpdate.IndexBuffer e c.index_contents], p1.2.upsert_indexes_buffer e)
    else ([], p1.2)
  (p1.1 ++ p2.1, p2.2, c)

/-- `prepare_buffer_update_for_ui_component` (lines 65-91): the UI-image
variant of the pass. -/
def prepare_buffer_update_for_ui_component (r : Scion2DPreRenderer)
    (items : List (Entity × RComponent)) :
    List RenderingUpdate × Scion2DPreRenderer × List (Entity × RComponent) :=
  match items with
  | [] => ([], r, [])
  | (e, c) :: rest =>
    let step := processUiEntity r e c
    let next := prepare_buffer_update_for_ui_component step.2.1 rest
    (step.1 ++ next.1, next.2.1, (e, step.2.2) :: next.2.2)

/-- `UiText` as `prepare_buffer_update_for_ui_text` (lines 185-257) sees it:
the dirty flag, the material's texture path, and the (opaque) glyph payloads
it would compute. -/
structure UiTextC where
  dirty : Bool
  path : String
  vertex_contents : List Nat
  index_contents : List Nat
deriving DecidableEq

/-- The body of the query loop of `prepare_buffer_update_for_ui_text` for
one entity: recomputation happens only under `path != "" && ui_text.dirty()`
(line 199); it emits one vertex and one index update and clears the dirty
flag (line 253). -/
def processUiTextEntity (r : Scion2DPreRenderer) (e : Entity) (c : UiTextC) :
    List RenderingUpdate × Scion2DPreRenderer × UiTextC :=
  if c.path ≠ "" ∧ c.dirty = true then
    ([RenderingUpdate.VertexBuffer e c.vertex_contents,
      RenderingUpdate.IndexBuffer e c.index_contents],
     (r.upsert_vertex_buffer e).upsert_indexes_buffer e,
     { c with dirty := false })
  else ([], r, c)

/-- A tile's `Sprite` as the tilemap pass sees it: dirty flag plus opaque
per-tile vertex/index payloads. -/
structure TileSprite where
  dirty : Bool
  vertex_contents : List Nat
  index_contents : List Nat
deriving DecidableEq

/-- `any_dirty_sprite` (lines 176-183), applied to the given tilemap's own
tiles (the source filters the `(Tile, Sprite)` query on
`tile.tilemap == entity`). -/
def any_dirty_sprite (tiles : List (Entity × TileSprite)) : Bool :=
  tiles.any (fun t => t.2.dirty)

/-- `prepare_buffer_update_for_tilemap` (lines 93-174) for one tilemap
entity: when the tilemap has no vertex buffer yet or any of its tile sprites
is dirty, one batched vertex update and one batched index update tagged with
the tilemap entity are emitted and every tile sprite's dirty flag is cleared
(the `to_modify` drain, lines 167-171); otherwise nothing is emitted. The
per-tile vertex math is opaque here; its depth component is embedded
separately as `tile_offset_z`. -/
def prepare_buffer_update_for_tilemap (r : Scion2DPreRenderer) (tm : Entity)
    (tiles : List (Entity × TileSprite)) :
    List RenderingUpdate × Scion2DPreRenderer × List (Entity × TileSprite) :=
  let any_tile_modified := r.missing_vertex_buffer tm || any_dirty_sprite tiles
  if any_tile_modified then
    ([RenderingUpdate.VertexBuffer tm (tiles.map (fun t => t.2.vertex_contents)).flatten,
      RenderingUpdate.IndexBuffer tm (tiles.map (fun t => t.2.index_contents)).flatten],
     (r.upsert_vertex_buffer tm).upsert_indexes_buffer tm,
     tiles.map (fun t => (t.1, { t.2 with dirty := false })))
  else ([], r, tiles)

/-- A tile grid position (`Position` from `utils::maths`): x, y, z. -/
structure TilePos where
  x : Nat
  y : Nat
  z : Nat
deriving DecidableEq

/-- The per-tile depth offset `offset_z` computed inside
`prepare_buffer_update_for_tilemap` (lines 122-128): the `Standard`
projection uses only the tilemap's constant `depth` and the tile's `z`
(`depth * 100 - z * 10`, line 127); the `Isometric` projection folds
`max_x`, x, y and z into one ordering scalar (line 125). Coordinates are
`usize` in the source; the subtractions are in range for tiles created by
`Tilemap::create`. -/
def tile_offset_z (isometric : Bool) (max_x depth : Nat) (p : TilePos) : Nat :=
  if isometric then
    (max_x - p.z) * (max_x + 1) + p.x * (max_x + 1) + (max_x - p.y)
  else
    depth * 100 - p.z * 10

/-! ## Pre-renderer transform pass (`prepare_transform_updates.rs`) -/

/-- A 3-component translation (`Coordinates`); `f32` in the source, embedded
as integers — the pass only ever compares translations for (in)equality. -/
structure Coordinates3 where
  x : Int
  y : Int
  z : Int
deriving DecidableEq

/-- The part of `Transform` the transform pass reads. -/
structure TransformC where
  global_translation : Coordinates3
deriving DecidableEq

/-- One renderable entity as the transform pass sees it: its id and whether
it currently carries the `Dirty` marker component. -/
structure RenderableRow where
  entity : Entity
  has_dirty_marker : Bool
deriving DecidableEq

/-- `prepare_transform_updates::call` (lines 20-53), with the per-type
helpers (lines 55-153) collapsed over one list of renderable rows:
`dirty_camera` holds when a previous camera transform is stored and its
global translation differs from the current one (lines 23-27); if so every
renderable row emits a `TransformUniform` (the `*_no_dirty_check` branch),
otherwise only rows carrying the `Dirty` marker do (the `&Dirty` term of the
query, line 62). -/
def prepare_transform_updates (renderer_camera : Option TransformC) (camera : TransformC)
    (rows : List RenderableRow) : List RenderingUpdate :=
  let dirty_camera :=
    match renderer_camera with
    | some old_transform => decide (old_transform.global_translation ≠ camera.global_translation)
    | none => false
  if dirty_camera then
    rows.map (fun row => RenderingUpdate.TransformUniform row.entity)
  else
    (rows.filter (fun row => row.has_dirty_marker)).map
      (fun row => RenderingUpdate.TransformUniform row.entity)

/-! ## Lemmas about the association-list maps -/

theorem lookupA_eraseA {α β : Type} [DecidableEq α] (m : List (α × β)) (k k' : α) :
    lookupA (eraseA m k) k' = if k = k' then none else lookupA m k' := by
  induction m with
  | nil => simp [eraseA, lookupA]
  | cons p rest ih =>
    cases p with
    | mk a b =>
      by_cases hak : a = k
      · subst hak
        by_cases hkk : a = k'
        · subst hkk
          simpa [eraseA, lookupA] using ih
        · simp [eraseA, lookupA, hkk, ih]
      · by_cases hak' : a = k'
        · subst hak'
          have hka : k ≠ a := fun hh => hak hh.symm
          simp [eraseA, lookupA, hak, hka]
        · simp [eraseA, lookupA, hak, hak', ih]

theorem lookupA_insertA_self {α β : Type} [DecidableEq α] (m : List (α × β)) (k : α) (v : β) :
    lookupA (insertA m k v) k = some v := by
  simp [insertA, lookupA]

theorem lookupA_insertA_ne {α β : Type} [DecidableEq α] (m : List (α × β)) (k k' : α) (v : β)
    (h : k ≠ k') : lookupA (insertA m k v) k' = lookupA m k' := by
  simp [insertA, lookupA, h, lookupA_eraseA]

theorem lookupA_insertA {α β : Type} [DecidableEq α] (m : List (α × β)) (k k' : α) (v : β) :
    lookupA (insertA m k v) k' = if k = k' then some v else lookupA m k' := by
  by_cases h : k = k'
  · subst h; simp [lookupA_insertA_self]
  · simp [lookupA_insertA_ne m k k' v h, h]

/-! ## Lemmas about the color-picking registry -/

namespace ColorPickingStorage

theorem create_picking_registered (s : ColorPickingStorage) (e : Entity) (c : Nat)
    (he : lookupA s.entity_to_color e = some c) :
    s.create_picking e = (Color.color_from_u32 c, s) := by
  simp [create_picking, he]

theorem create_picking_fresh (s : ColorPickingStorage) (e : Entity)
    (he : lookupA s.entity_to_color e = none) (hfree : s.available_colors_indexes = []) :
    s.create_picking e =
      (Color.color_from_u32
         (if s.next_color_index = 0 then s.next_color_index + 1 else s.next_color_index),
       { entity_to_color :=
           insertA s.entity_to_color e
             (if s.next_color_index = 0 then s.next_color_index + 1 else s.next_color_index),
         color_to_entity :=
           insertA s.color_to_entity
             (if s.next_color_index = 0 then s.next_color_index + 1 else s.next_color_index) e,
         available_colors_indexes := [],
         next_color_index :=
           ((if s.next_color_index = 0 then s.next_color_index + 1 else s.next_color_index) + 1) %
             u32Size }) := by
  simp [create_picking, he, hfree, next_index]

theorem inv_step (s : ColorPickingStorage) (n : Nat) (e : Entity)
    (hs : Inv s n) (hn : n + 1 < u32Size) :
    Inv ((s.create_picking e).2) n ∨ Inv ((s.create_picking e).2) (n + 1) := by
  obtain ⟨hfree, hncx, hbound, hinv1, hinv2⟩ := hs
  cases he : lookupA s.entity_to_color e with
  | some c =>
      left
      rw [create_picking_registered s e c he]
      exact ⟨hfree, hncx, hbound, hinv1, hinv2⟩
  | none =>
      right
      have hbump :
          (if s.next_color_index = 0 then s.next_color_index + 1 else s.next_color_index)
            = n + 1 := by
        rw [hncx]
        by_cases h0 : n = 0
        · simp [h0]
        · have hmod : (n + 1) % u32Size = n + 1 := Nat.mod_eq_of_lt hn
          simp [h0, hmod]
      rw [create_picking_fresh s e he hfree, hbump]
      refine ⟨rfl, by simp, ?_, ?_, ?_⟩
      · intro e' c' hc'
        rw [lookupA_insertA] at hc'
        by_cases hee : e = e'
        · simp [hee] at hc'
          omega
        · rw [if_neg hee] at hc'
          have := hbound e' c' hc'
          omega
      · intro e' c' hc'
        rw [lookupA_insertA] at hc'
        by_cases hee : e = e'
        · rw [if_pos hee] at hc'
          cases hc'
          rw [← hee, lookupA_insertA_self]
        · rw [if_neg hee] at hc'
          have hle := hbound e' c' hc'
          have hne : n + 1 ≠ c' := by omega
          rw [lookupA_insertA_ne _ _ _ _ hne]
          exact hinv1 e' c' hc'
      · intro c' e' hc'
        rw [lookupA_insertA] at hc'
        by_cases hcc : n + 1 = c'
        · rw [if_pos hcc] at hc'
          cases hc'
          rw [hcc, lookupA_insertA_self]
        · rw [if_neg hcc] at hc'
          have hback := hinv2 c' e' hc'
          have hne : e ≠ e' := by
            intro hh
            rw [← hh, he] at hback
            exact Option.noConfusion hback
          rw [lookupA_insertA_ne _ _ _ _ hne]
          exact hback

theorem inv_createAll (es : List Entity) : ∀ (s : ColorPickingStorage) (n : Nat),
    Inv s n → n + es.length < u32Size →
    ∃ m, m ≤ n + es.length ∧ Inv (createAll s es) m := by
  induction es with
  | nil => intro s n hs _; exact ⟨n, by simp, hs⟩
  | cons e rest ih =>
      intro s n hs hlen
      have hn : n + 1 < u32Size := by
        simp only [List.length_cons] at hlen
        omega
      have hrest : createAll s (e :: rest) = createAll ((s.create_picking e).2) rest := rfl
      rcases inv_step s n e hs hn with hinv | hinv
      · obtain ⟨m, hm, hminv⟩ := ih _ n hinv (by simp at hlen ⊢; omega)
        exact ⟨m, by simp at hlen ⊢; omega, by rwa [hrest]⟩
      · obtain ⟨m, hm, hminv⟩ := ih _ (n + 1) hinv (by simp at hlen ⊢; omega)
        exact ⟨m, by simp at hlen ⊢; omega, by rwa [hrest]⟩

theorem createAll_snoc (s : ColorPickingStorage) (es : List Entity) (e : Entity) :
    createAll s (es ++ [e]) = ((createAll s es).create_picking e).2 := by
  simp [createAll, List.foldl_append]

theorem createAll_range : ∀ n : Nat, n < u32Size →
    (createAll mkDefault (List.range n)).available_colors_indexes = [] ∧
    (createAll mkDefault (List.range n)).next_color_index
      = (if n = 0 then 0 else (n + 1) % u32Size) ∧
    (∀ k, lookupA (createAll mkDefault (List.range n)).entity_to_color k
      = if k < n then some (k + 1) else none) ∧
    (∀ c, lookupA (createAll mkDefault (List.range n)).color_to_entity c
      = if 1 ≤ c ∧ c ≤ n then some (c - 1) else none) := by
  intro n
  induction n with
  | zero =>
      intro _
      refine ⟨rfl, rfl, fun k => ?_, fun c => ?_⟩
      · rw [if_neg (Nat.not_lt_zero k)]
        rfl
      · rw [if_neg (show ¬ (1 ≤ c ∧ c ≤ 0) by omega)]
        rfl
  | succ n ih =>
      intro hn
      obtain ⟨hfree, hncx, he2c, hc2e⟩ := ih (Nat.lt_of_succ_lt hn)
      have hsplit : createAll mkDefault (List.range (n + 1))
          = ((createAll mkDefault (List.range n)).create_picking n).2 := by
        rw [List.range_succ]
        exact createAll_snoc _ _ _
      have hlook : lookupA (createAll mkDefault (List.range n)).entity_to_color n = none := by
        rw [he2c]
        simp
      have hfreshened := create_picking_fresh _ n hlook hfree
      have hbump :
          (if (createAll mkDefault (List.range n)).next_color_index = 0 then
            (createAll mkDefault (List.range n)).next_color_index + 1
          else (createAll mkDefault (List.range n)).next_color_index) = n + 1 := by
        rw [hncx]
        by_cases h0 : n = 0
        · simp [h0]
        · have hmod : (n + 1) % u32Size = n + 1 := Nat.mod_eq_of_lt hn
          simp [h0, hmod]
      rw [hbump] at hfreshened
      rw [hsplit, hfreshened]
      refine ⟨rfl, by simp, fun k => ?_, fun c => ?_⟩
      · simp only [lookupA_insertA]
        by_cases hk : n = k
        · subst hk
          simp
        · rw [if_neg hk, he2c]
          by_cases hlt : k < n
          · rw [if_pos hlt, if_pos (Nat.lt_succ_of_lt hlt)]
          · have hx : ¬ k < n + 1 := fun hc =>
              hk (Nat.le_antisymm (Nat.le_of_not_lt hlt) (Nat.lt_succ_iff.mp hc))
            rw [if_neg hlt, if_neg hx]
      · simp only [lookupA_insertA]
        by_cases hc : n + 1 = c
        · subst hc
          simp
        · rw [if_neg hc, hc2e]
          by_cases hlt : 1 ≤ c ∧ c ≤ n
          · rw [if_pos hlt, if_pos ⟨hlt.1, Nat.le_succ_of_le hlt.2⟩]
          · have hx : ¬ (1 ≤ c ∧ c ≤ n + 1) := fun h =>
              hlt ⟨h.1, Nat.lt_succ_iff.mp
                (Nat.lt_of_le_of_ne h.2 (fun hh => hc hh.symm))⟩
            rw [if_neg hlt, if_neg hx]

end ColorPickingStorage

/-! ## C7: color-picking stability and id reuse -/

/-- **C7**: `create_picking(E)` called twice for the same never-despawned
entity `E` returns the same color both times (first conjunct, for every
registry state); and after `E` is despawned, its id is reclaimed into the
free list, so a later `create_picking` on a new entity may be assigned that
same id, after which `get_entity_from_color` for that color resolves to the
new entity only (second conjunct: from the default registry, entity 0 is
registered then despawned, and entity 1 then receives 0's color, which
resolves to entity 1). -/
theorem create_picking_stable_and_reuse :
    (∀ (s : ColorPickingStorage) (e : Entity),
        (((s.create_picking e).2).create_picking e).1 = (s.create_picking e).1) ∧
    ((((ColorPickingStorage.mkDefault.create_picking 0).2.remove_picking 0).create_picking 1).1
        = (ColorPickingStorage.mkDefault.create_picking 0).1 ∧
      (((ColorPickingStorage.mkDefault.create_picking 0).2.remove_picking 0).create_picking
          1).2.get_entity_from_color (ColorPickingStorage.mkDefault.create_picking 0).1
        = some 1) := by
  refine ⟨?_, by decide, by decide⟩
  intro s e
  cases he : lookupA s.entity_to_color e with
  | some c => simp [ColorPickingStorage.create_picking, he]
  | none => simp [ColorPickingStorage.create_picking, he, lookupA_insertA_self]

/-! ## C10: registry invariant, and its `u32` wrap-around limit -/

/-- **C10** (counterexample): the claim fails as stated. After the sequence
of `create_picking` calls on the `2 ^ 32` distinct entities
`0, 1, …, 2 ^ 32 - 1`, starting from the default state, the `u32` counter
`next_color_index` has wrapped to 0, so the last call re-assigns color id 1
(already held by entity 0) to entity `2 ^ 32 - 1`: the two maps are no
longer mutually inverse. -/
theorem registry_inverse_fails_at_wraparound :
    ¬ (ColorPickingStorage.MutualInverse
          (ColorPickingStorage.createAll ColorPickingStorage.mkDefault (List.range u32Size)) ∧
        ColorPickingStorage.NoZeroColor
          (ColorPickingStorage.createAll ColorPickingStorage.mkDefault (List.range u32Size))) := by
  rintro ⟨⟨dir1, -⟩, -⟩
  have hN : u32Size - 1 < u32Size := by norm_num [u32Size]
  have hNne : ¬ (u32Size - 1 = 0) := by norm_num [u32Size]
  have hNpos : 0 < u32Size - 1 := by norm_num [u32Size]
  obtain ⟨hfree, hncx, he2c, hc2e⟩ := ColorPickingStorage.createAll_range (u32Size - 1) hN
  have hrange : List.range u32Size = List.range (u32Size - 1) ++ [u32Size - 1] := by
    rw [← List.range_succ]
    norm_num [u32Size]
  have hsplit : ColorPickingStorage.createAll ColorPickingStorage.mkDefault (List.range u32Size)
      = ((ColorPickingStorage.createAll ColorPickingStorage.mkDefault
          (List.range (u32Size - 1))).create_picking (u32Size - 1)).2 := by
    rw [hrange]
    exact ColorPickingStorage.createAll_snoc _ _ _
  have hlook : lookupA (ColorPickingStorage.createAll ColorPickingStorage.mkDefault
      (List.range (u32Size - 1))).entity_to_color (u32Size - 1) = none := by
    rw [he2c (u32Size - 1), if_neg (lt_irrefl (u32Size - 1))]
  have hfreshened := ColorPickingStorage.create_picking_fresh _ (u32Size - 1) hlook hfree
  have hncx0 : (ColorPickingStorage.createAll ColorPickingStorage.mkDefault
      (List.range (u32Size - 1))).next_color_index = 0 := by
    rw [hncx, if_neg hNne]
    norm_num [u32Size]
  rw [hncx0] at hfreshened
  simp only [reduceIte, Nat.zero_add] at hfreshened
  have h01 : lookupA (ColorPickingStorage.createAll ColorPickingStorage.mkDefault
      (List.range u32Size)).entity_to_color 0 = some 1 := by
    rw [hsplit, hfreshened, lookupA_insertA_ne _ _ _ _ hNne, he2c 0, if_pos hNpos]
  have hcontr := dir1 0 1 h01
  rw [hsplit, hfreshened, lookupA_insertA_self] at hcontr
  exact absurd (Option.some_injective _ hcontr) hNne

/-- **C10** (amended): for every sequence of strictly fewer than `2 ^ 32`
`create_picking` calls starting from the default state, the
`entity_to_color` and `color_to_entity` maps remain mutually inverse, and no
assigned color id is ever 0 (because `next_index` skips index 0). The length
bound is forced by the `u32` wrap-around of `next_color_index` exhibited in
the counterexample; it is the only change to the claim. -/
theorem registry_inverse_and_nonzero (es : List Entity) (h : es.length < u32Size) :
    ColorPickingStorage.MutualInverse
      (ColorPickingStorage.createAll ColorPickingStorage.mkDefault es) ∧
    ColorPickingStorage.NoZeroColor
      (ColorPickingStorage.createAll ColorPickingStorage.mkDefault es) := by
  have base : ColorPickingStorage.Inv ColorPickingStorage.mkDefault 0 := by
    refine ⟨rfl, rfl, ?_, ?_, ?_⟩ <;> intro a b hab <;>
      simp [ColorPickingStorage.mkDefault, lookupA] at hab
  obtain ⟨m, hm, h1, h2, hbound, hinv1, hinv2⟩ :=
    ColorPickingStorage.inv_createAll es ColorPickingStorage.mkDefault 0 base (by omega)
  refine ⟨⟨hinv1, hinv2⟩, fun e c hc => ?_⟩
  have := hbound e c hc
  omega

/-- Witness for the amended C10 theorem at the concrete three-call sequence
`[3, 3, 7]`. -/
theorem registry_inverse_and_nonzero_witness :
    ColorPickingStorage.MutualInverse
      (ColorPickingStorage.createAll ColorPickingStorage.mkDefault [3, 3, 7]) ∧
    ColorPickingStorage.NoZeroColor
      (ColorPickingStorage.createAll ColorPickingStorage.mkDefault [3, 3, 7]) :=
  registry_inverse_and_nonzero [3, 3, 7] (by norm_num [u32Size])

/-! ## C3: parent/children link maintenance -/

/-- **C3**: for an entity `e` present in the world with a `Parent p`
component (`p` present too) and not yet listed among `p`'s children, the
children-link step inserts `e` exactly once into `p`'s children list;
running the link step again for the same `e` does not produce a duplicate
entry; and removing `e`'s `Parent` relation removes `e` from the list
exactly once, leaving no residual occurrence. -/
theorem parent_children_link_exact (w : HWorld) (e p : Entity)
    (he : e ∈ w.entities) (hp : lookupA w.parent e = some p) (hpw : p ∈ w.entities)
    (h0 : childCount w p e = 0) :
    ∃ w1 w2, init_parent_children_link w e = some w1 ∧ childCount w1 p e = 1 ∧
      init_parent_children_link w1 e = some w2 ∧ childCount w2 p e = 1 ∧
      childCount (update_parent_if_needed w2 (some p) e) p e = 0 := by
  cases hch : lookupA w.children p with
  | none =>
      refine ⟨{ w with children := insertA w.children p [e] },
        { w with children := insertA (insertA w.children p [e]) p [e] }, ?_, ?_, ?_, ?_, ?_⟩
      · simp [init_parent_children_link, he, hp, hpw, hch]
      · simp [childCount, lookupA_insertA_self, List.count_cons_self]
      · simp [init_parent_children_link, he, hp, hpw, lookupA_insertA_self]
      · simp [childCount, lookupA_insertA_self, List.count_cons_self]
      · simp [update_parent_if_needed, childCount, lookupA_insertA_self]
  | some cs =>
      have hcs0 : cs.count e = 0 := by
        simpa [childCount, hch] using h0
      have hnotin : e ∉ cs := List.count_eq_zero.mp hcs0
      refine ⟨{ w with children := insertA w.children p (cs ++ [e]) },
        { w with children := insertA (insertA w.children p (cs ++ [e])) p (cs ++ [e]) },
        ?_, ?_, ?_, ?_, ?_⟩
      · simp [init_parent_children_link, he, hp, hpw, hch, hnotin]
      · simp [childCount, lookupA_insertA_self, List.count_append, hcs0]
      · simp [init_parent_children_link, he, hp, hpw, lookupA_insertA_self]
      · simp [childCount, lookupA_insertA_self, List.count_append, hcs0]
      · have hfil : (cs ++ [e]).filter (fun x => x ≠ e) = cs.filter (fun x => x ≠ e) := by
          simp [List.filter_append]
        have hcnt : (cs.filter (fun x => x ≠ e)).count e = 0 := by
          refine List.count_eq_zero.mpr (fun hmem => ?_)
          have := (List.mem_filter.mp hmem).2
          simp at this
        simp only [ne_eq, decide_not] at hfil hcnt
        simp [update_parent_if_needed, childCount, lookupA_insertA_self, hfil, hcnt]

/-- Witness for the C3 theorem: the world with entities 0 and 1 where entity
1 carries `Parent 0` and no children list exists yet. -/
theorem parent_children_link_exact_witness :
    ∃ w1 w2, init_parent_children_link ⟨[0, 1], [(1, 0)], []⟩ 1 = some w1 ∧
      childCount w1 0 1 = 1 ∧
      init_parent_children_link w1 1 = some w2 ∧ childCount w2 0 1 = 1 ∧
      childCount (update_parent_if_needed w2 (some 0) 1) 0 1 = 0 :=
  parent_children_link_exact ⟨[0, 1], [(1, 0)], []⟩ 1 0 (by decide) (by decide) (by decide)
    (by decide)

/-! ## C4: animation completion -/

/-- **C4**: once every modifier's `current_keyframe` equals its
`number_of_keyframes`, the next status check (`try_update_status`) resets
every modifier's `current_keyframe` to 0 and transitions the status
Running→Stopped and Stopping→Stopped, while a Looping animation keeps
status Looping. -/
theorem animation_completion (a : Animation)
    (hall : ∀ m ∈ a.modifiers, m.current_keyframe = m.number_of_keyframes)
    (hst : a.status = AnimationStatus.Running ∨ a.status = AnimationStatus.Stopping ∨
      a.status = AnimationStatus.Looping) :
    (∀ m ∈ a.try_update_status.modifiers, m.current_keyframe = 0) ∧
    a.try_update_status.status =
      (if a.status = AnimationStatus.Looping then AnimationStatus.Looping
       else AnimationStatus.Stopped) := by
  have hfilter : a.modifiers.filter (fun m => m.current_keyframe = m.number_of_keyframes)
      = a.modifiers :=
    List.filter_eq_self.mpr (fun m hm => by simp [hall m hm])
  rcases hst with h | h | h <;>
    simp [Animation.try_update_status, h, hfilter, List.mem_map]

/-- Witness for the C4 theorem: one modifier at keyframe 2 of 2, status
Running. -/
theorem animation_completion_witness :
    (∀ m ∈ (Animation.mk [⟨2, 2⟩] AnimationStatus.Running).try_update_status.modifiers,
        m.current_keyframe = 0) ∧
    (Animation.mk [⟨2, 2⟩] AnimationStatus.Running).try_update_status.status =
      (if (Animation.mk [⟨2, 2⟩] AnimationStatus.Running).status = AnimationStatus.Looping then
        AnimationStatus.Looping
       else AnimationStatus.Stopped) :=
  animation_completion (Animation.mk [⟨2, 2⟩] AnimationStatus.Running) (by decide)
    (by decide)

/-! ## C5: starting an animation -/

/-- **C5**: `run_animation(name)` on an `Animations` component where `name`
maps to an animation whose status is `Stopped` or `WaitingStartTime`
returns true and sets that animation's status to `Running`; calling
`run_animation(name)` again returns false and leaves the component (hence
the status) unchanged. -/
theorem run_animation_idempotent_rejection (anims : Animations) (name : String) (a : Animation)
    (hfound : lookupA anims.animations name = some a)
    (hst : a.status = AnimationStatus.Stopped ∨
      ∃ t, a.status = AnimationStatus.WaitingStartTime t) :
    (anims.run_animation name).1 = true ∧
    lookupA (anims.run_animation name).2.animations name
      = some { a with status := AnimationStatus.Running } ∧
    ((anims.run_animation name).2.run_animation name).1 = false ∧
    ((anims.run_animation name).2.run_animation name).2 = (anims.run_animation name).2 := by
  have h1 : anims.run_animation name
      = (true, ⟨insertA anims.animations name { a with status := AnimationStatus.Running }⟩) := by
    rcases hst with h | ⟨t, h⟩ <;> simp [Animations.run_animation, Animations.run, hfound, h]
  rw [h1]
  refine ⟨rfl, lookupA_insertA_self _ _ _, ?_, ?_⟩ <;>
    simp [Animations.run_animation, Animations.run, lookupA_insertA_self]

/-- Witness for the C5 theorem: a single stopped animation named "move". -/
theorem run_animation_idempotent_rejection_witness :
    ((Animations.mk [("move", ⟨[], AnimationStatus.Stopped⟩)]).run_animation "move").1 = true ∧
    lookupA ((Animations.mk [("move", ⟨[], AnimationStatus.Stopped⟩)]).run_animation
        "move").2.animations "move"
      = some { Animation.mk [] AnimationStatus.Stopped with status := AnimationStatus.Running } ∧
    (((Animations.mk [("move", ⟨[], AnimationStatus.Stopped⟩)]).run_animation
        "move").2.run_animation "move").1 = false ∧
    (((Animations.mk [("move", ⟨[], AnimationStatus.Stopped⟩)]).run_animation
        "move").2.run_animation "move").2
      = ((Animations.mk [("move", ⟨[], AnimationStatus.Stopped⟩)]).run_animation "move").2 :=
  run_animation_idempotent_rejection (Animations.mk [("move", ⟨[], AnimationStatus.Stopped⟩)])
    "move" (Animation.mk [] AnimationStatus.Stopped) (by decide) (Or.inl (by decide))

/-! ## C6: `run_animation_delayed` and absent animations -/

/-- **C6** (code-bug evaluation): `run_animation_delayed` returns `true`
even when the named animation does not exist (first conjunct: empty
component) and even when it is already `Running` (second conjunct), in which
case nothing is scheduled (third conjunct: the component is unchanged). The
function's own doc comment says it "Returns true is the animation has been
started, false if it does not exist or was already running", but the source
drops the result of `self.run(..)`. -/
theorem run_animation_delayed_ignores_absence :
    (Animations.run_animation_delayed ⟨[]⟩ 0 "move" 5).1 = true ∧
    (Animations.run_animation_delayed ⟨[("move", ⟨[], AnimationStatus.Running⟩)]⟩ 0 "move"
        5).1 = true ∧
    (Animations.run_animation_delayed ⟨[("move", ⟨[], AnimationStatus.Running⟩)]⟩ 0 "move"
        5).2 = ⟨[("move", ⟨[], AnimationStatus.Running⟩)]⟩ := by
  refine ⟨rfl, rfl, ?_⟩
  simp [Animations.run_animation_delayed, checkedAdd, instantMax, Animations.run, lookupA]

/-! ## Lemmas about the pre-renderer buffer registry -/

theorem upsert_vertex_buffer_indexes (r : Scion2DPreRenderer) (e : Entity) :
    (r.upsert_vertex_buffer e).indexes_buffers = r.indexes_buffers := by
  unfold Scion2DPreRenderer.upsert_vertex_buffer
  split <;> rfl

theorem upsert_indexes_buffer_vertex (r : Scion2DPreRenderer) (e : Entity) :
    (r.upsert_indexes_buffer e).vertex_buffers = r.vertex_buffers := by
  unfold Scion2DPreRenderer.upsert_indexes_buffer
  split <;> rfl

theorem mem_upsert_vertex_buffer (r : Scion2DPreRenderer) (e a : Entity) :
    a ∈ (r.upsert_vertex_buffer e).vertex_buffers ↔ a = e ∨ a ∈ r.vertex_buffers := by
  unfold Scion2DPreRenderer.upsert_vertex_buffer
  by_cases hmem : e ∈ r.vertex_buffers
  · rw [if_pos hmem]
    constructor
    · exact Or.inr
    · rintro (rfl | h)
      · exact hmem
      · exact h
  · rw [if_neg hmem]
    exact List.mem_cons

theorem mem_upsert_indexes_buffer (r : Scion2DPreRenderer) (e a : Entity) :
    a ∈ (r.upsert_indexes_buffer e).indexes_buffers ↔ a = e ∨ a ∈ r.indexes_buffers := by
  unfold Scion2DPreRenderer.upsert_indexes_buffer
  by_cases hmem : e ∈ r.indexes_buffers
  · rw [if_pos hmem]
    constructor
    · exact Or.inr
    · rintro (rfl | h)
      · exact hmem
      · exact h
  · rw [if_neg hmem]
    exact List.mem_cons

theorem missing_vertex_upsert_self (r : Scion2DPreRenderer) (e : Entity) :
    (r.upsert_vertex_buffer e).missing_vertex_buffer e = false := by
  simp [Scion2DPreRenderer.missing_vertex_buffer, mem_upsert_vertex_buffer]

theorem missing_indexes_upsert_self (r : Scion2DPreRenderer) (e : Entity) :
    (r.upsert_indexes_buffer e).missing_indexes_buffer e = false := by
  simp [Scion2DPreRenderer.missing_indexes_buffer, mem_upsert_indexes_buffer]

theorem missing_vertex_upsert_ne (r : Scion2DPreRenderer) (e e' : Entity) (h : e ≠ e') :
    (r.upsert_vertex_buffer e).missing_vertex_buffer e' = r.missing_vertex_buffer e' := by
  unfold Scion2DPreRenderer.missing_vertex_buffer
  exact decide_eq_decide.mpr (not_congr ((mem_upsert_vertex_buffer r e e').trans
    (or_iff_right (fun hh => h hh.symm))))

theorem missing_indexes_upsert_ne (r : Scion2DPreRenderer) (e e' : Entity) (h : e ≠ e') :
    (r.upsert_indexes_buffer e).missing_indexes_buffer e' = r.missing_indexes_buffer e' := by
  unfold Scion2DPreRenderer.missing_indexes_buffer
  exact decide_eq_decide.mpr (not_congr ((mem_upsert_indexes_buffer r e e').trans
    (or_iff_right (fun hh => h hh.symm))))

theorem missing_indexes_upsert_vertex (r : Scion2DPreRenderer) (e e' : Entity) :
    (r.upsert_vertex_buffer e).missing_indexes_buffer e' = r.missing_indexes_buffer e' := by
  unfold Scion2DPreRenderer.missing_indexes_buffer
  rw [upsert_vertex_buffer_indexes]

theorem missing_vertex_upsert_indexes (r : Scion2DPreRenderer) (e e' : Entity) :
    (r.upsert_indexes_buffer e).missing_vertex_buffer e' = r.missing_vertex_buffer e' := by
  unfold Scion2DPreRenderer.missing_vertex_buffer
  rw [upsert_indexes_buffer_vertex]

/-! ## Lemmas about the shape buffer pass -/

theorem processShapeEntity_updates (r : Scion2DPreRenderer) (e : Entity) (c : RComponent) :
    (processShapeEntity r e c).1
      = shapeEmits (r.missing_vertex_buffer e) (r.missing_indexes_buffer e) e c := by
  cases hv : r.missing_vertex_buffer e <;> cases hi : r.missing_indexes_buffer e <;>
    cases hd : c.dirty <;>
      simp [processShapeEntity, shapeEmits, hv, hi, hd, missing_indexes_upsert_vertex]

theorem processShapeEntity_component (r : Scion2DPreRenderer) (e : Entity) (c : RComponent) :
    (processShapeEntity r e c).2.2 = c.set_dirty false := rfl

theorem processShapeEntity_flags_self (r : Scion2DPreRenderer) (e : Entity) (c : RComponent) :
    (processShapeEntity r e c).2.1.missing_vertex_buffer e = false ∧
    (processShapeEntity r e c).2.1.missing_indexes_buffer e = false := by
  cases hv : r.missing_vertex_buffer e <;> cases hi : r.missing_indexes_buffer e <;>
    cases hd : c.dirty <;>
      simp [processShapeEntity, hv, hi, hd, missing_vertex_upsert_self,
        missing_indexes_upsert_self, missing_indexes_upsert_vertex,
        missing_vertex_upsert_indexes]

theorem processShapeEntity_flags_other (r : Scion2DPreRenderer) (e : Entity) (c : RComponent)
    (e' : Entity) (h : e ≠ e') :
    (processShapeEntity r e c).2.1.missing_vertex_buffer e' = r.missing_vertex_buffer e' ∧
    (processShapeEntity r e c).2.1.missing_indexes_buffer e' = r.missing_indexes_buffer e' := by
  cases hv : r.missing_vertex_buffer e <;> cases hi : r.missing_indexes_buffer e <;>
    cases hd : c.dirty <;>
      simp [processShapeEntity, hv, hi, hd, missing_vertex_upsert_ne _ _ _ h,
        missing_indexes_upsert_ne _ _ _ h, missing_indexes_upsert_vertex,
        missing_vertex_upsert_indexes]

theorem processShapeEntity_tags (r : Scion2DPreRenderer) (e : Entity) (c : RComponent) :
    ∀ u ∈ (processShapeEntity r e c).1, u.taggedEntity = e := by
  intro u hu
  rw [processShapeEntity_updates] at hu
  unfold shapeEmits at hu
  rcases List.mem_append.mp hu with h | h
  · split at h
    · simp at h
      subst h
      rfl
    · simp at h
  · split at h
    · simp at h
      subst h
      rfl
    · simp at h

theorem pass_shape_fsts (items : List (Entity × RComponent)) :
    ∀ r : Scion2DPreRenderer,
    (prepare_buffer_update_for_component r items).2.2.map Prod.fst = items.map Prod.fst := by
  induction items with
  | nil => intro r; rfl
  | cons p rest ih =>
      intro r
      cases p with
      | mk e c => simp [prepare_buffer_update_for_component, ih]

theorem pass_shape_components (items : List (Entity × RComponent)) :
    ∀ r : Scion2DPreRenderer,
    (prepare_buffer_update_for_component r items).2.2
      = items.map (fun p => (p.1, p.2.set_dirty false)) := by
  induction items with
  | nil => intro r; rfl
  | cons p rest ih =>
      intro r
      cases p with
      | mk e c => simp [prepare_buffer_update_for_component, ih, processShapeEntity_component]

theorem pass_shape_not_mem (items : List (Entity × RComponent)) :
    ∀ (r : Scion2DPreRenderer) (e : Entity), e ∉ items.map Prod.fst →
    (prepare_buffer_update_for_component r items).1.filter
        (fun u => u.taggedEntity = e) = [] ∧
    (prepare_buffer_update_for_component r items).2.1.missing_vertex_buffer e
        = r.missing_vertex_buffer e ∧
    (prepare_buffer_update_for_component r items).2.1.missing_indexes_buffer e
        = r.missing_indexes_buffer e := by
  induction items with
  | nil => intro r e _; exact ⟨rfl, rfl, rfl⟩
  | cons p rest ih =>
      intro r e hnot
      cases p with
      | mk e' c =>
        have hne : e' ≠ e := by
          intro hh
          exact hnot (by simp [hh])
        have hrest : e ∉ rest.map Prod.fst := fun hh => hnot (by simp [hh])
        obtain ⟨ihf, ihv, ihi⟩ := ih (processShapeEntity r e' c).2.1 e hrest
        obtain ⟨hfv, hfi⟩ := processShapeEntity_flags_other r e' c e hne
        have hstep : (processShapeEntity r e' c).1.filter (fun u => u.taggedEntity = e)
            = [] := by
          refine List.filter_eq_nil_iff.mpr (fun u hu => ?_)
          simp [processShapeEntity_tags r e' c u hu, hne]
        refine ⟨?_, ?_, ?_⟩
        · simp only [prepare_buffer_update_for_component]
          rw [List.filter_append, hstep, ihf, List.nil_append]
        · simp only [prepare_buffer_update_for_component]
          rw [ihv, hfv]
        · simp only [prepare_buffer_update_for_component]
          rw [ihi, hfi]

theorem pass_shape_mem (items : List (Entity × RComponent)) :
    ∀ (r : Scion2DPreRenderer) (e : Entity) (c : RComponent),
    (e, c) ∈ items → (items.map Prod.fst).Nodup →
    (prepare_buffer_update_for_component r items).1.filter (fun u => u.taggedEntity = e)
        = shapeEmits (r.missing_vertex_buffer e) (r.missing_indexes_buffer e) e c ∧
    (prepare_buffer_update_for_component r items).2.1.missing_vertex_buffer e = false ∧
    (prepare_buffer_update_for_component r items).2.1.missing_indexes_buffer e = false ∧
    (e, c.set_dirty false) ∈ (prepare_buffer_update_for_component r items).2.2 := by
  induction items with
  | nil => intro r e c hmem _; exact absurd hmem (List.not_mem_nil _)
  | cons p rest ih =>
      intro r e c hmem hnd
      cases p with
      | mk e' c' =>
        rw [List.map_cons, List.nodup_cons] at hnd
        obtain ⟨hhead, hndrest⟩ := hnd
        rcases List.mem_cons.mp hmem with heq | hmem'
        · injection heq with h1 h2
          subst h1
          subst h2
          obtain ⟨hf, hv, hi⟩ := pass_shape_not_mem rest (processShapeEntity r e c).2.1 e hhead
          obtain ⟨hsv, hsi⟩ := processShapeEntity_flags_self r e c
          have hkeep : (processShapeEntity r e c).1.filter (fun u => u.taggedEntity = e)
              = (processShapeEntity r e c).1 :=
            List.filter_eq_self.mpr (fun u hu => by
              simp [processShapeEntity_tags r e c u hu])
          refine ⟨?_, ?_, ?_, ?_⟩
          · simp only [prepare_buffer_update_for_component]
            rw [List.filter_append, hkeep, hf, List.append_nil, processShapeEntity_updates]
          · simp only [prepare_buffer_update_for_component]
            rw [hv, hsv]
          · simp only [prepare_buffer_update_for_component]
            rw [hi, hsi]
          · simp only [prepare_buffer_update_for_component]
            exact List.mem_cons_self _ _
        · have hein : e ∈ rest.map Prod.fst := List.mem_map.mpr ⟨(e, c), hmem', rfl⟩
          have hne : e' ≠ e := fun hh => hhead (hh ▸ hein)
          obtain ⟨ihf, ihv, ihi, ihm⟩ := ih (processShapeEntity r e' c').2.1 e c hmem' hndrest
          obtain ⟨hfv, hfi⟩ := processShapeEntity_flags_other r e' c' e hne
          rw [hfv, hfi] at ihf
          have hstep : (processShapeEntity r e' c').1.filter (fun u => u.taggedEntity = e)
              = [] := by
            refine List.filter_eq_nil_iff.mpr (fun u hu => ?_)
            simp [processShapeEntity_tags r e' c' u hu, hne]
          refine ⟨?_, ?_, ?_, ?_⟩
          · simp only [prepare_buffer_update_for_component]
            rw [List.filter_append, hstep, ihf, List.nil_append]
          · simp only [prepare_buffer_update_for_component]
            exact ihv
          · simp only [prepare_buffer_update_for_component]
            exact ihi
          · simp only [prepare_buffer_update_for_component]
            exact List.mem_cons_of_mem _ ihm

theorem processUiEntity_component (r : Scion2DPreRenderer) (e : Entity) (c : RComponent) :
    (processUiEntity r e c).2.2 = c := rfl

theorem pass_ui_components (items : List (Entity × RComponent)) :
    ∀ r : Scion2DPreRenderer,
    (prepare_buffer_update_for_ui_component r items).2.2 = items := by
  induction items with
  | nil => intro r; rfl
  | cons p rest ih =>
      intro r
      cases p with
      | mk e c => simp [prepare_buffer_update_for_ui_component, ih, processUiEntity_component]

/-! ## C1: first-pass upload, then silence -/

/-- **C1**: in the shape buffer pass over the `(entity, component)` rows of
a `(T, Material, Transform)` query, a row whose entity has no recorded
vertex/index buffer receives exactly one `VertexBuffer` and one
`IndexBuffer` update tagged with it, even though its `dirty()` is false (the
missing buffer overrides the dirty check); and on the subsequent pass, with
both buffers now recorded and `dirty()` still false, zero updates tagged
with that entity are emitted. -/
theorem buffer_first_pass_upload_then_silent (r : Scion2DPreRenderer)
    (items : List (Entity × RComponent)) (e : Entity) (c : RComponent)
    (hmem : (e, c) ∈ items) (hnd : (items.map Prod.fst).Nodup)
    (hv : r.missing_vertex_buffer e = true) (hi : r.missing_indexes_buffer e = true)
    (_hdirty : c.dirty = false) :
    (prepare_buffer_update_for_component r items).1.filter (fun u => u.taggedEntity = e)
      = [RenderingUpdate.VertexBuffer e c.vertex_contents,
         RenderingUpdate.IndexBuffer e c.index_contents] ∧
    (prepare_buffer_update_for_component (prepare_buffer_update_for_component r items).2.1
        (prepare_buffer_update_for_component r items).2.2).1.filter
      (fun u => u.taggedEntity = e) = [] := by
  obtain ⟨hf, hfv, hfi, hm⟩ := pass_shape_mem items r e c hmem hnd
  constructor
  · rw [hf, hv, hi]
    simp [shapeEmits]
  · have hnd2 : ((prepare_buffer_update_for_component r items).2.2.map Prod.fst).Nodup := by
      rw [pass_shape_fsts]
      exact hnd
    obtain ⟨hf2, -, -, -⟩ :=
      pass_shape_mem (prepare_buffer_update_for_component r items).2.2
        (prepare_buffer_update_for_component r items).2.1 e (c.set_dirty false) hm hnd2
    rw [hf2, hfv, hfi]
    simp [shapeEmits, RComponent.set_dirty]

/-- Witness for the C1 theorem: a fresh registry and a single clean
component on entity 0. -/
theorem buffer_first_pass_upload_then_silent_witness :
    (prepare_buffer_update_for_component ⟨[], []⟩ [(0, ⟨false, [1], [2]⟩)]).1.filter
        (fun u => u.taggedEntity = 0)
      = [RenderingUpdate.VertexBuffer 0 [1], RenderingUpdate.IndexBuffer 0 [2]] ∧
    (prepare_buffer_update_for_component
        (prepare_buffer_update_for_component ⟨[], []⟩ [(0, ⟨false, [1], [2]⟩)]).2.1
        (prepare_buffer_update_for_component ⟨[], []⟩ [(0, ⟨false, [1], [2]⟩)]).2.2).1.filter
      (fun u => u.taggedEntity = 0) = [] :=
  buffer_first_pass_upload_then_silent ⟨[], []⟩ [(0, ⟨false, [1], [2]⟩)] 0 ⟨false, [1], [2]⟩
    (by decide) (by decide) (by decide) (by decide) (by decide)

/-! ## C2: dirty-flag clearing after recomputation -/

/-- **C2** (counterexample): the claim fails for UI images. On the UI-image
pass (`prepare_buffer_update_for_ui_component`), a dirty component on entity
0 has its buffers recomputed and emitted (first conjunct), yet its dirty
flag is not cleared (second conjunct: the component row is returned
unchanged, still dirty), so the next pass emits buffer updates again (third
conjunct) even though nothing marked the component dirty in between. -/
theorem ui_image_pass_keeps_dirty :
    (prepare_buffer_update_for_ui_component ⟨[], []⟩ [(0, ⟨true, [7], [8]⟩)]).1 ≠ [] ∧
    (prepare_buffer_update_for_ui_component ⟨[], []⟩ [(0, ⟨true, [7], [8]⟩)]).2.2
      = [(0, ⟨true, [7], [8]⟩)] ∧
    (prepare_buffer_update_for_ui_component
        (prepare_buffer_update_for_ui_component ⟨[], []⟩ [(0, ⟨true, [7], [8]⟩)]).2.1
        (prepare_buffer_update_for_ui_component ⟨[], []⟩ [(0, ⟨true, [7], [8]⟩)]).2.2).1
      ≠ [] := by
  decide

/-- **C2** (amended): the dirty-flag-clearing contract holds for the shape
pass (shapes and standalone sprites), the UI-text pass and the tilemap pass,
but not for the UI-image pass, which never clears the flag.
Conjuncts: (1) the shape pass returns every component with its dirty flag
cleared, and (2) a second shape pass emits zero updates tagged with any
entity of the first; (3) a UI-text recomputation (non-empty path, dirty)
emits updates, clears the dirty flag, and (4) a second run of its loop body
emits nothing; (5) the tilemap pass leaves every tile sprite clean and (6) a
second tilemap pass emits nothing; (7) the UI-image pass returns its
component rows entirely unchanged (dirty flags included). -/
theorem dirty_flag_clearing_amended (r r2 r3 rt : Scion2DPreRenderer)
    (items items3 : List (Entity × RComponent)) (e : Entity) (c : RComponent)
    (et tm : Entity) (tc : UiTextC) (tiles : List (Entity × TileSprite))
    (hmem : (e, c) ∈ items) (hnd : (items.map Prod.fst).Nodup)
    (htp : tc.path ≠ "") (htd : tc.dirty = true) :
    (prepare_buffer_update_for_component r items).2.2
        = items.map (fun p => (p.1, p.2.set_dirty false)) ∧
    (prepare_buffer_update_for_component (prepare_buffer_update_for_component r items).2.1
        (prepare_buffer_update_for_component r items).2.2).1.filter
      (fun u => u.taggedEntity = e) = [] ∧
    (processUiTextEntity rt et tc).1 ≠ [] ∧
    (processUiTextEntity rt et tc).2.2.dirty = false ∧
    (processUiTextEntity (processUiTextEntity rt et tc).2.1 et
        (processUiTextEntity rt et tc).2.2).1 = [] ∧
    (∀ t ∈ (prepare_buffer_update_for_tilemap r2 tm tiles).2.2, t.2.dirty = false) ∧
    (prepare_buffer_update_for_tilemap (prepare_buffer_update_for_tilemap r2 tm tiles).2.1 tm
        (prepare_buffer_update_for_tilemap r2 tm tiles).2.2).1 = [] ∧
    (prepare_buffer_update_for_ui_component r3 items3).2.2 = items3 := by
  obtain ⟨-, hfv, hfi, hm⟩ := pass_shape_mem items r e c hmem hnd
  have htext : processUiTextEntity rt et tc
      = ([RenderingUpdate.VertexBuffer et tc.vertex_contents,
          RenderingUpdate.IndexBuffer et tc.index_contents],
         (rt.upsert_vertex_buffer et).upsert_indexes_buffer et,
         { tc with dirty := false }) := by
    simp [processUiTextEntity, htp, htd]
  refine ⟨pass_shape_components items r, ?_, ?_, ?_, ?_, ?_, ?_, pass_ui_components items3 r3⟩
  · have hnd2 : ((prepare_buffer_update_for_component r items).2.2.map Prod.fst).Nodup := by
      rw [pass_shape_fsts]
      exact hnd
    obtain ⟨hf2, -, -, -⟩ :=
      pass_shape_mem (prepare_buffer_update_for_component r items).2.2
        (prepare_buffer_update_for_component r items).2.1 e (c.set_dirty false) hm hnd2
    rw [hf2, hfv, hfi]
    simp [shapeEmits, RComponent.set_dirty]
  · rw [htext]
    simp
  · rw [htext]
  · rw [htext]
    simp [processUiTextEntity]
  · by_cases hgate : (r2.missing_vertex_buffer tm || any_dirty_sprite tiles) = true
    · simp only [prepare_buffer_update_for_tilemap, hgate, if_true]
      intro t ht
      obtain ⟨t0, -, rfl⟩ := List.mem_map.mp ht
      rfl
    · have hres : prepare_buffer_update_for_tilemap r2 tm tiles = ([], r2, tiles) := by
        simp only [prepare_buffer_update_for_tilemap]
        rw [if_neg hgate]
      rw [hres]
      intro t ht
      cases hd : t.2.dirty
      · rfl
      · exfalso
        have hany : any_dirty_sprite tiles = true := List.any_eq_true.mpr ⟨t, ht, hd⟩
        exact hgate (by rw [hany, Bool.or_true])
  · by_cases hgate : (r2.missing_vertex_buffer tm || any_dirty_sprite tiles) = true
    · simp only [prepare_buffer_update_for_tilemap, hgate, if_true]
      have hmv : ((r2.upsert_vertex_buffer tm).upsert_indexes_buffer
          tm).missing_vertex_buffer tm = false := by
        rw [missing_vertex_upsert_indexes, missing_vertex_upsert_self]
      have hany : any_dirty_sprite (tiles.map (fun t => (t.1, { t.2 with dirty := false })))
          = false := by
        simp [any_dirty_sprite, List.any_map, Function.comp]
      simp [prepare_buffer_update_for_tilemap, hmv, hany]
    · have hres : prepare_buffer_update_for_tilemap r2 tm tiles = ([], r2, tiles) := by
        simp only [prepare_buffer_update_for_tilemap]
        rw [if_neg hgate]
      rw [hres]
      show (prepare_buffer_update_for_tilemap r2 tm tiles).1 = []
      rw [hres]

/-- Witness for the amended C2 theorem at concrete inputs: a dirty shape
component on entity 0, a dirty UI text with a font path on entity 5, one
dirty tile sprite under tilemap 9, and a dirty UI image on entity 8. -/
theorem dirty_flag_clearing_amended_witness :
    (prepare_buffer_update_for_component ⟨[], []⟩ [(0, ⟨true, [1], [2]⟩)]).2.2
        = ([(0, ⟨true, [1], [2]⟩)] : List (Entity × RComponent)).map
            (fun p => (p.1, p.2.set_dirty false)) ∧
    (prepare_buffer_update_for_component
        (prepare_buffer_update_for_component ⟨[], []⟩ [(0, ⟨true, [1], [2]⟩)]).2.1
        (prepare_buffer_update_for_component ⟨[], []⟩ [(0, ⟨true, [1], [2]⟩)]).2.2).1.filter
      (fun u => u.taggedEntity = 0) = [] ∧
    (processUiTextEntity ⟨[], []⟩ 5 ⟨true, "font", [3], [4]⟩).1 ≠ [] ∧
    (processUiTextEntity ⟨[], []⟩ 5 ⟨true, "font", [3], [4]⟩).2.2.dirty = false ∧
    (processUiTextEntity (processUiTextEntity ⟨[], []⟩ 5 ⟨true, "font", [3], [4]⟩).2.1 5
        (processUiTextEntity ⟨[], []⟩ 5 ⟨true, "font", [3], [4]⟩).2.2).1 = [] ∧
    (∀ t ∈ (prepare_buffer_update_for_tilemap ⟨[], []⟩ 9 [(7, ⟨true, [5], [6]⟩)]).2.2,
        t.2.dirty = false) ∧
    (prepare_buffer_update_for_tilemap
        (prepare_buffer_update_for_tilemap ⟨[], []⟩ 9 [(7, ⟨true, [5], [6]⟩)]).2.1 9
        (prepare_buffer_update_for_tilemap ⟨[], []⟩ 9 [(7, ⟨true, [5], [6]⟩)]).2.2).1 = [] ∧
    (prepare_buffer_update_for_ui_component ⟨[], []⟩ [(8, ⟨true, [7], [8]⟩)]).2.2
      = [(8, ⟨true, [7], [8]⟩)] :=
  dirty_flag_clearing_amended ⟨[], []⟩ ⟨[], []⟩ ⟨[], []⟩ ⟨[], []⟩
    [(0, ⟨true, [1], [2]⟩)] [(8, ⟨true, [7], [8]⟩)] 0 ⟨true, [1], [2]⟩ 5 9
    ⟨true, "font", [3], [4]⟩ [(7, ⟨true, [5], [6]⟩)]
    (by decide) (by decide) (by decide) (by decide)

/-! ## C8: transform pass camera gating -/

/-- **C8**: in the transform/uniform pass, when the stored previous camera
transform's global translation differs from the current one, a
`TransformUniform` update is emitted for every renderable row regardless of
dirtiness (first conjunct); when it is unchanged, an update is emitted for a
row exactly when the row carries the `Dirty` marker (second conjunct); and
on a pass with no stored previous camera, likewise only `Dirty` rows emit
(third conjunct). -/
theorem transform_pass_camera_gating (old camera : TransformC) (rows : List RenderableRow)
    (hnd : (rows.map RenderableRow.entity).Nodup) :
    (old.global_translation ≠ camera.global_translation →
      ∀ row ∈ rows, RenderingUpdate.TransformUniform row.entity
        ∈ prepare_transform_updates (some old) camera rows) ∧
    (old.global_translation = camera.global_translation →
      ∀ row ∈ rows, (RenderingUpdate.TransformUniform row.entity
          ∈ prepare_transform_updates (some old) camera rows
        ↔ row.has_dirty_marker = true)) ∧
    prepare_transform_updates none camera rows
      = (rows.filter (fun row => row.has_dirty_marker)).map
          (fun row => RenderingUpdate.TransformUniform row.entity) := by
  refine ⟨?_, ?_, by simp [prepare_transform_updates]⟩
  · intro hne row hrow
    have hres : prepare_transform_updates (some old) camera rows
        = rows.map (fun row => RenderingUpdate.TransformUniform row.entity) := by
      simp [prepare_transform_updates, hne]
    rw [hres]
    exact List.mem_map.mpr ⟨row, hrow, rfl⟩
  · intro heq row hrow
    have hres : prepare_transform_updates (some old) camera rows
        = (rows.filter (fun row => row.has_dirty_marker)).map
            (fun row => RenderingUpdate.TransformUniform row.entity) := by
      simp [prepare_transform_updates, heq]
    rw [hres]
    constructor
    · intro hmem
      obtain ⟨row', hrow', hEq⟩ := List.mem_map.mp hmem
      have hent : row'.entity = row.entity := by
        injection hEq
      obtain ⟨hrow'mem, hdirty'⟩ := List.mem_filter.mp hrow'
      have hrr : row' = row :=
        List.inj_on_of_nodup_map hnd hrow'mem hrow hent
      rw [← hrr]
      exact hdirty'
    · intro hdirty
      exact List.mem_map.mpr ⟨row, List.mem_filter.mpr ⟨hrow, hdirty⟩, rfl⟩

/-- Witness for the C8 theorem: two rows, entity 0 dirty and entity 1
clean. -/
theorem transform_pass_camera_gating_witness :
    ((TransformC.mk ⟨0, 0, 0⟩).global_translation
        ≠ (TransformC.mk ⟨1, 0, 0⟩).global_translation →
      ∀ row ∈ [RenderableRow.mk 0 true, RenderableRow.mk 1 false],
        RenderingUpdate.TransformUniform row.entity
          ∈ prepare_transform_updates (some (TransformC.mk ⟨0, 0, 0⟩))
              (TransformC.mk ⟨1, 0, 0⟩) [RenderableRow.mk 0 true, RenderableRow.mk 1 false]) ∧
    ((TransformC.mk ⟨0, 0, 0⟩).global_translation
        = (TransformC.mk ⟨1, 0, 0⟩).global_translation →
      ∀ row ∈ [RenderableRow.mk 0 true, RenderableRow.mk 1 false],
        (RenderingUpdate.TransformUniform row.entity
            ∈ prepare_transform_updates (some (TransformC.mk ⟨0, 0, 0⟩))
                (TransformC.mk ⟨1, 0, 0⟩) [RenderableRow.mk 0 true, RenderableRow.mk 1 false]
          ↔ row.has_dirty_marker = true)) ∧
    prepare_transform_updates none (TransformC.mk ⟨1, 0, 0⟩)
        [RenderableRow.mk 0 true, RenderableRow.mk 1 false]
      = (([RenderableRow.mk 0 true, RenderableRow.mk 1 false].filter
          (fun row => row.has_dirty_marker)).map
          (fun row => RenderingUpdate.TransformUniform row.entity)) :=
  transform_pass_camera_gating (TransformC.mk ⟨0, 0, 0⟩) (TransformC.mk ⟨1, 0, 0⟩)
    [RenderableRow.mk 0 true, RenderableRow.mk 1 false] (by decide)

/-! ## C9: standard-mode tile depth -/

/-- **C9**: in `Standard` projection mode, the per-tile depth offset
`offset_z` depends only on the tile's z coordinate and the tilemap's
constant depth: two tiles whose positions differ only in x and y at the
same z receive the same offset, and raising one tile's z from 0 to 1
changes its offset relative to the other tile's (for any tilemap depth ≥ 1,
as in the spec's width=2, height=1, depth=1 scenario). -/
theorem standard_tile_depth_offset (max_x depth : Nat) (p q : TilePos)
    (hz : p.z = q.z) (hd : 1 ≤ depth) :
    tile_offset_z false max_x depth p = tile_offset_z false max_x depth q ∧
    tile_offset_z false max_x depth { p with z := 1 }
      ≠ tile_offset_z false max_x depth { q with z := 0 } := by
  constructor
  · simp [tile_offset_z, hz]
  · simp only [tile_offset_z, if_neg Bool.false_ne_true]
    omega

/-- Witness for the C9 theorem: the spec's scenario, a depth-1 tilemap of
width 2 with tiles at (0,0,0) and (1,0,0). -/
theorem standard_tile_depth_offset_witness :
    tile_offset_z false 2 1 ⟨0, 0, 0⟩ = tile_offset_z false 2 1 ⟨1, 0, 0⟩ ∧
    tile_offset_z false 2 1 { TilePos.mk 0 0 0 with z := 1 }
      ≠ tile_offset_z false 2 1 { TilePos.mk 1 0 0 with z := 0 } :=
  standard_tile_depth_offset 2 1 ⟨0, 0, 0⟩ ⟨1, 0, 0⟩ (by decide) (by decide)

end Scion
